import Mathlib

/-!
Verification of the address-derivation core of `python-verify.py`.

Bytes are modelled as `List Nat` (each entry a byte value). The third-party
library calls (`bip_utils` Base58Check codec, BIP32 key parsing/derivation,
`hashlib` SHA-256/RIPEMD-160, and the concrete address encoders) are not part
of this repository; they are modelled as fields of a `Primitives` structure,
and every theorem quantifies over an arbitrary `Primitives` instance.  All
logic belonging to the repository itself — prefix-based network
classification, version-byte rewriting, the BIP-67 sort, redeem-script byte
assembly, and script-type dispatch — is translated directly from the source.
Fallible steps return `Except String`, mirroring Python exceptions carrying
a message.
-/

set_option maxRecDepth 100000

namespace PyVerify

/-- External library operations used by `python-verify.py` (from `bip_utils`
and `hashlib`).  `checkDecode` models `Base58Decoder.CheckDecode` (fallible),
`checkEncode` models `Base58Encoder.CheckEncode`, and `derivePubkey xpub c i`
models `Bip32Secp256k1.FromExtendedKey(xpub).DerivePath(f"{c}/{i}").PublicKey().RawCompressed().ToBytes()`
(fallible: parsing can reject the key).  The `…Encode` fields model the
`*Addr.EncodeKey` calls; their `Bool` argument is the mainnet flag selecting
`CoinsConf.BitcoinMainNet` vs `CoinsConf.BitcoinTestNet`, and
`p2shEncodeHash` additionally takes the explicit `net_ver` byte string. -/
structure Primitives where
  checkDecode : String → Except String (List Nat)
  checkEncode : List Nat → String
  derivePubkey : String → Nat → Nat → Except String (List Nat)
  sha256 : List Nat → List Nat
  ripemd160 : List Nat → List Nat
  p2pkhEncode : List Nat → Bool → String
  p2shWrapP2wpkhEncode : List Nat → Bool → String
  p2wpkhEncode : List Nat → Bool → String
  p2trEncode : List Nat → Bool → String
  p2wshEncode : List Nat → Bool → String
  p2shEncodeHash : List Nat → Bool → List Nat → String

/-- The prefixes classified as mainnet in `derive_single_sig_bip_utils`
(line 63: `prefix in ['xpub', 'ypub', 'zpub', 'Ypub', 'Zpub']`). -/
def mainnetTags : List String := ["xpub", "ypub", "zpub", "Ypub", "Zpub"]

/-- The canonical tags that skip version-byte conversion
(lines 66 and 133: `prefix not in ['xpub', 'tpub']`). -/
def canonicalTags : List String := ["xpub", "tpub"]

/-- Canonical mainnet extended-key version bytes `0x0488B21E` (line 70). -/
def verMain : List Nat := [0x04, 0x88, 0xB2, 0x1E]

/-- Canonical testnet extended-key version bytes `0x043587CF` (line 72). -/
def verTest : List Nat := [0x04, 0x35, 0x87, 0xCF]

/-- Python `bytes([n])`: a one-byte string, raising `ValueError` when the
value is out of byte range. -/
def mkByte (n : Nat) : Except String Nat :=
  if n < 256 then .ok n else .error "bytes must be in range(0, 256)"

/-- Network classification of `derive_single_sig_bip_utils` (lines 62-63):
mainnet iff the first four characters are one of `mainnetTags`. -/
def isMainnetSingle (xpub : String) : Bool :=
  mainnetTags.contains (xpub.take 4)

/-- Version-byte normalization shared by both derivation functions
(lines 66-74 and 133-140): a key whose 4-character tag is already canonical
`xpub`/`tpub` is left unchanged; otherwise the key is Base58Check-decoded,
its first 4 bytes are replaced by the canonical mainnet or testnet version
constant, and the result is re-encoded. -/
def normalizeXpub (P : Primitives) (is_mainnet : Bool) (xpub : String) :
    Except String String :=
  if canonicalTags.contains (xpub.take 4) then .ok xpub
  else
    match P.checkDecode xpub with
    | .error e => .error e
    | .ok decoded =>
        let newVersion := if is_mainnet then verMain else verTest
        .ok (P.checkEncode (newVersion ++ decoded.drop 4))

/-- `derive_single_sig_bip_utils` (lines 56-116). -/
def derive_single_sig (P : Primitives) (xpub : String) (index : Nat)
    (script_type : String) (change : Bool) (network : String) :
    Except String String :=
  let is_mainnet := isMainnetSingle xpub
  match normalizeXpub P is_mainnet xpub with
  | .error e => .error e
  | .ok xpub1 =>
      let change_idx := if change then 1 else 0
      match P.derivePubkey xpub1 change_idx index with
      | .error e => .error e
      | .ok pub_key =>
          if script_type = "legacy" then
            .ok (P.p2pkhEncode pub_key is_mainnet)
          else if script_type = "nested_segwit" then
            .ok (P.p2shWrapP2wpkhEncode pub_key is_mainnet)
          else if script_type = "native_segwit" then
            .ok (P.p2wpkhEncode pub_key is_mainnet)
          else if script_type = "taproot" then
            .ok (P.p2trEncode ((pub_key.drop 1).take 32) is_mainnet)
          else .error ("Unknown script type: " ++ script_type)

/-- One iteration of the multisig key loop (lines 130-145): normalize the
xpub with the network-argument-based mainnet flag, then derive the
compressed public key at `change_idx/index`. -/
def processXpub (P : Primitives) (is_mainnet : Bool) (change_idx index : Nat)
    (xpub : String) : Except String (List Nat) :=
  match normalizeXpub P is_mainnet xpub with
  | .error e => .error e
  | .ok xpub1 => P.derivePubkey xpub1 change_idx index

/-- Left-to-right effectful map over `Except`, mirroring the Python `for`
loop that appends to `pub_keys` and propagates the first exception. -/
def mapME {α β ε : Type} (f : α → Except ε β) : List α → Except ε (List β)
  | [] => .ok []
  | x :: xs =>
      match f x with
      | .error e => .error e
      | .ok y =>
          match mapME f xs with
          | .error e => .error e
          | .ok ys => .ok (y :: ys)

/-- Lexicographic `≤` on byte strings, as Python compares `bytes` values in
`pub_keys.sort()` (line 148). -/
def bytesLe : List Nat → List Nat → Bool
  | [], _ => true
  | _ :: _, [] => false
  | x :: xs, y :: ys =>
      if x < y then true else if y < x then false else bytesLe xs ys

/-- The sort order used by `pub_keys.sort()` as a relation. -/
def keyLe (a b : List Nat) : Prop := bytesLe a b = true

instance : DecidableRel keyLe := fun a b => by
  unfold keyLe; infer_instance

/-- `pub_keys.sort()` (line 148): BIP-67 ascending lexicographic sort. -/
def sortKeys (ks : List (List Nat)) : List (List Nat) :=
  ks.insertionSort keyLe

/-- The key portion of the redeem script (lines 153-154):
`for pk in pub_keys: redeem_script += bytes([len(pk)]) + pk`. -/
def scriptBody : List (List Nat) → Except String (List Nat)
  | [] => .ok []
  | pk :: rest =>
      match mkByte pk.length with
      | .error e => .error e
      | .ok b =>
          match scriptBody rest with
          | .error e => .error e
          | .ok tail => .ok (b :: (pk ++ tail))

/-- Redeem-script assembly (lines 152-156):
`OP_M` = `bytes([0x50 + threshold])`, then each key prefixed by its length
byte, then `OP_N` = `bytes([0x50 + len(pub_keys)])`, then
`OP_CHECKMULTISIG` = `0xAE`. -/
def redeemScript (threshold : Nat) (keys : List (List Nat)) :
    Except String (List Nat) :=
  match mkByte (0x50 + threshold) with
  | .error e => .error e
  | .ok opM =>
      match scriptBody keys with
      | .error e => .error e
      | .ok body =>
          match mkByte (0x50 + keys.length) with
          | .error e => .error e
          | .ok opN => .ok (opM :: (body ++ [opN, 0xAE]))

/-- Continuation of `derive_multisig_bip_utils` after the key-derivation
loop (lines 147-188): sort the keys, build and hash the redeem script, and
dispatch on the multisig script type. -/
def multisigFromKeys (P : Primitives) (pub_keys : List (List Nat))
    (threshold : Nat) (script_type : String) (is_mainnet : Bool) :
    Except String String :=
  match redeemScript threshold (sortKeys pub_keys) with
  | .error e => .error e
  | .ok redeem_script =>
      let script_hash := P.sha256 redeem_script
      let script_hash_160 := P.ripemd160 script_hash
      if script_type = "p2sh" then
        if is_mainnet then .ok (P.p2shEncodeHash script_hash_160 true [0x05])
        else .ok (P.p2shEncodeHash script_hash_160 false [0xC4])
      else if script_type = "p2wsh" then
        if is_mainnet then .ok (P.p2wshEncode script_hash true)
        else .ok (P.p2wshEncode script_hash false)
      else if script_type = "p2sh_p2wsh" then
        let witness_program := [0x00, 0x20] ++ script_hash
        let wp_hash := P.ripemd160 (P.sha256 witness_program)
        if is_mainnet then .ok (P.p2shEncodeHash wp_hash true [0x05])
        else .ok (P.p2shEncodeHash wp_hash false [0xC4])
      else .error ("Unknown multisig script type: " ++ script_type)

/-- `derive_multisig_bip_utils` (lines 119-188).  `is_mainnet` comes from
the explicit `network` argument (line 125: `network == 'mainnet'`). -/
def derive_multisig (P : Primitives) (xpubs : List String)
    (threshold index : Nat) (script_type : String) (change : Bool)
    (network : String) : Except String String :=
  let is_mainnet := network == "mainnet"
  let change_idx := if change then 1 else 0
  match mapME (processXpub P is_mainnet change_idx index) xpubs with
  | .error e => .error e
  | .ok pub_keys =>
      multisigFromKeys P pub_keys threshold script_type is_mainnet

/-- A concrete, fully computable `Primitives` instance used to evaluate the
pipeline at specific inputs (witnesses and counterexamples).  Its fields are
simple executable stand-ins with the right shapes: `derivePubkey` returns a
33-byte compressed-key-shaped list depending on its inputs, `sha256` always
returns 32 bytes, `ripemd160` 20 bytes, and each encoder returns a string
tagged with the encoder name, the mainnet flag, and the payload, so distinct
payloads give distinct addresses. -/
def testPrims : Primitives where
  checkDecode := fun s => .ok ((s.toList.map Char.toNat ++ List.replicate 78 0).take 78)
  checkEncode := fun b => "b58:" ++ toString b
  derivePubkey := fun s c i =>
    .ok ([2] ++ List.replicate 29 0 ++ [s.length % 256, c % 256, i % 256])
  sha256 := fun b => ((b.length % 256) :: (b ++ List.replicate 32 1)).take 32
  ripemd160 := fun b => ((b.length % 256) :: (b ++ List.replicate 20 3)).take 20
  p2pkhEncode := fun h mn => "p2pkh:" ++ toString mn ++ ":" ++ toString h
  p2shWrapP2wpkhEncode := fun h mn => "p2sh-p2wpkh:" ++ toString mn ++ ":" ++ toString h
  p2wpkhEncode := fun h mn => "p2wpkh:" ++ toString mn ++ ":" ++ toString h
  p2trEncode := fun h mn => "p2tr:" ++ toString mn ++ ":" ++ toString h
  p2wshEncode := fun h mn => "p2wsh:" ++ toString mn ++ ":" ++ toString h
  p2shEncodeHash := fun h mn nv =>
    "p2sh:" ++ toString mn ++ ":" ++ toString nv ++ ":" ++ toString h

/-! ### Order properties of the BIP-67 byte-string comparison -/

theorem bytesLe_total : ∀ a b : List Nat, bytesLe a b = true ∨ bytesLe b a = true
  | [], _ => .inl rfl
  | _ :: _, [] => .inr rfl
  | x :: xs, y :: ys => by
    rcases Nat.lt_trichotomy x y with h | h | h
    · left; simp [bytesLe, h]
    · subst h
      rcases bytesLe_total xs ys with ih | ih
      · left; simp [bytesLe, ih]
      · right; simp [bytesLe, ih]
    · right; simp [bytesLe, h]

theorem bytesLe_trans :
    ∀ a b c : List Nat, bytesLe a b = true → bytesLe b c = true →
      bytesLe a c = true
  | [], _, _, _, _ => rfl
  | x :: xs, [], c, hab, _ => by simp [bytesLe] at hab
  | x :: xs, y :: ys, [], _, hbc => by simp [bytesLe] at hbc
  | x :: xs, y :: ys, z :: zs, hab, hbc => by
    simp only [bytesLe] at hab hbc ⊢
    rcases Nat.lt_trichotomy x y with h1 | h1 | h1
    · rcases Nat.lt_trichotomy y z with h2 | h2 | h2
      · simp [Nat.lt_trans h1 h2]
      · subst h2; simp [h1]
      · simp [h1, Nat.lt_asymm h1] at hab
        simp [Nat.lt_asymm h2, h2] at hbc
    · subst h1
      rcases Nat.lt_trichotomy x z with h2 | h2 | h2
      · simp [h2]
      · subst h2
        simp [Nat.lt_irrefl] at hab hbc ⊢
        exact bytesLe_trans xs ys zs hab hbc
      · simp [Nat.lt_asymm h2, h2] at hbc
    · simp [Nat.lt_asymm h1, h1] at hab

theorem bytesLe_antisymm :
    ∀ a b : List Nat, bytesLe a b = true → bytesLe b a = true → a = b
  | [], [], _, _ => rfl
  | [], _ :: _, _, hba => by simp [bytesLe] at hba
  | _ :: _, [], hab, _ => by simp [bytesLe] at hab
  | x :: xs, y :: ys, hab, hba => by
    simp only [bytesLe] at hab hba
    rcases Nat.lt_trichotomy x y with h | h | h
    · simp [Nat.lt_asymm h, h] at hba
    · subst h
      simp [Nat.lt_irrefl] at hab hba
      rw [bytesLe_antisymm xs ys hab hba]
    · simp [Nat.lt_asymm h, h] at hab

instance : IsTotal (List Nat) keyLe := ⟨fun a b => bytesLe_total a b⟩

instance : IsTrans (List Nat) keyLe := ⟨fun a b c => bytesLe_trans a b c⟩

instance : IsAntisymm (List Nat) keyLe := ⟨fun a b => bytesLe_antisymm a b⟩

/-- Sorting with `sortKeys` depends only on the multiset of keys: permuted
inputs sort to the same list. -/
theorem sortKeys_perm_eq {ks ks' : List (List Nat)} (h : ks.Perm ks') :
    sortKeys ks = sortKeys ks' :=
  List.eq_of_perm_of_sorted
    ((List.perm_insertionSort keyLe ks).trans
      (h.trans (List.perm_insertionSort keyLe ks').symm))
    (List.sorted_insertionSort keyLe ks)
    (List.sorted_insertionSort keyLe ks')

/-! ### `mapME` under permutation -/

/-- If the effectful map succeeds on a list, it succeeds on any permutation
of it, and the outputs are a matching permutation. -/
theorem mapME_perm {α β ε : Type} (f : α → Except ε β) {l₁ l₂ : List α}
    (h : l₁.Perm l₂) :
    ∀ ys, mapME f l₁ = .ok ys → ∃ zs, mapME f l₂ = .ok zs ∧ ys.Perm zs := by
  induction h with
  | nil => exact fun ys hy => ⟨ys, hy, List.Perm.refl ys⟩
  | cons x h ih =>
    rename_i t₁ t₂
    intro ys hy
    simp only [mapME] at hy
    cases hfx : f x with
    | error e => rw [hfx] at hy; exact absurd hy (by simp)
    | ok y =>
      rw [hfx] at hy
      cases hrest : mapME f t₁ with
      | error e => rw [hrest] at hy; exact absurd hy (by simp)
      | ok ws =>
        rw [hrest] at hy
        obtain ⟨zs, hz, hp⟩ := ih ws hrest
        refine ⟨y :: zs, ?_, ?_⟩
        · simp only [mapME, hfx, hz]
        · cases hy; exact hp.cons y
  | swap a b l =>
    intro ys hy
    simp only [mapME] at hy ⊢
    cases hfb : f b with
    | error e => rw [hfb] at hy; exact absurd hy (by simp)
    | ok vb =>
      rw [hfb] at hy
      cases hfa : f a with
      | error e => rw [hfa] at hy; exact absurd hy (by simp)
      | ok va =>
        rw [hfa] at hy
        cases hrest : mapME f l with
        | error e => rw [hrest] at hy; exact absurd hy (by simp)
        | ok ws =>
          rw [hrest] at hy
          cases hy
          exact ⟨va :: vb :: ws, rfl, List.Perm.swap va vb ws⟩
  | trans h₁ h₂ ih₁ ih₂ =>
    intro ys hy
    obtain ⟨zs, hz, hp⟩ := ih₁ ys hy
    obtain ⟨ws, hw, hq⟩ := ih₂ zs hz
    exact ⟨ws, hw, hp.trans hq⟩

/-- `multisigFromKeys` consumes the derived keys only through `sortKeys`. -/
theorem multisigFromKeys_congr (P : Primitives) {ks ks' : List (List Nat)}
    (t : Nat) (st : String) (mn : Bool) (h : sortKeys ks = sortKeys ks') :
    multisigFromKeys P ks t st mn = multisigFromKeys P ks' t st mn := by
  unfold multisigFromKeys
  rw [h]

/-- Closed form of the key portion of the redeem script: when every key fits
its length byte, `scriptBody` is the flattening of `len(k) :: k` blocks. -/
theorem scriptBody_spec :
    ∀ keys : List (List Nat), (∀ k ∈ keys, k.length < 256) →
      scriptBody keys = .ok ((keys.map (fun k => k.length :: k)).flatten)
  | [], _ => rfl
  | pk :: rest, h => by
    have hpk : pk.length < 256 := h pk (by simp)
    have hrest := scriptBody_spec rest (fun k hk => h k (by simp [hk]))
    simp only [scriptBody, mkByte, if_pos hpk, hrest, List.map_cons,
      List.flatten_cons, List.cons_append]

/-- `testPrims.sha256` always returns 32 bytes. -/
theorem testPrims_sha256_len (b : List Nat) :
    (testPrims.sha256 b).length = 32 := by
  simp [testPrims]

/-! ### Claims -/

/-- **C1.** Cosigner-order invariance: for every list of xpubs, threshold,
index, script type, change flag, and network (and any behaviour of the
external library primitives), permuting the xpub list passed to
`derive_multisig` leaves a successfully returned address unchanged, because
the derived compressed public keys are sorted ascending by raw byte value
(BIP-67) before the redeem script is built. -/
theorem C1_multisig_order_invariance (P : Primitives) (xs ys : List String)
    (t i : Nat) (st : String) (ch : Bool) (nw : String) (a : String)
    (hperm : xs.Perm ys)
    (hok : derive_multisig P xs t i st ch nw = .ok a) :
    derive_multisig P ys t i st ch nw = .ok a := by
  simp only [derive_multisig] at hok ⊢
  cases hks : mapME (processXpub P (nw == "mainnet") (if ch then 1 else 0) i) xs with
  | error e => rw [hks] at hok; exact absurd hok (by simp)
  | ok ks =>
    rw [hks] at hok
    obtain ⟨ks2, hks2, hp⟩ := mapME_perm _ hperm ks hks
    rw [hks2]
    show multisigFromKeys P ks2 t st (nw == "mainnet") = Except.ok a
    rw [multisigFromKeys_congr P t st (nw == "mainnet") (sortKeys_perm_eq hp.symm)]
    exact hok

/-- Witness for C1 at concrete inputs: the two xpubs derive distinct keys
(of different payloads), yet swapping their order yields the identical
p2sh multisig address. -/
theorem C1_witness :
    derive_multisig testPrims ["xpubBB", "xpubA"] 2 0 "p2sh" false "mainnet" =
      .ok "p2sh:true:[5]:[32, 71, 82, 33, 2, 0, 0, 0, 0, 0, 0, 0, 0, 0, 0, 0, 0, 0, 0, 0]" :=
  C1_multisig_order_invariance testPrims ["xpubA", "xpubBB"] ["xpubBB", "xpubA"]
    2 0 "p2sh" false "mainnet" _ (List.Perm.swap _ _ _) (by rfl)

/-- **C2.** For every non-empty list of (BIP-67-sorted) compressed public
keys of count M and every threshold T in opcode range, the redeem script
built by `derive_multisig` is exactly
`(0x50+T) || for each key: len(key) || key || (0x50+M) || 0xAE`. -/
theorem C2_redeem_script_bytes (keys : List (List Nat)) (t : Nat)
    (hne : keys ≠ [])
    (hk : ∀ k ∈ keys, k.length = 33)
    (ht : 0x50 + t < 256)
    (hm : 0x50 + keys.length < 256) :
    redeemScript t keys =
      .ok ([0x50 + t] ++ (keys.map (fun k => k.length :: k)).flatten ++
        [0x50 + keys.length] ++ [0xAE]) := by
  have hbody := scriptBody_spec keys (fun k hk2 => by rw [hk k hk2]; omega)
  simp only [redeemScript, mkByte, if_pos ht, if_pos hm, hbody]
  simp

/-- Witness for C2: a concrete 2-of-3 sorted key set produces exactly the
specified byte sequence. -/
theorem C2_witness :
    redeemScript 2 [List.replicate 33 7, List.replicate 33 9, List.replicate 33 11] =
      .ok ([0x50 + 2] ++
        (([List.replicate 33 7, List.replicate 33 9, List.replicate 33 11].map
          (fun k => k.length :: k)).flatten) ++ [0x50 + 3] ++ [0xAE]) :=
  C2_redeem_script_bytes _ 2 (by simp) (by simp) (by omega) (by simp)

/-- **C3 (counterexample).** The claim says T=0, T=17 and M=17 each fail
with `ThresholdRangeError`.  In the code there is no threshold validation at
all: at T=0, at T=17, and with 17 cosigners, `derive_multisig` succeeds and
returns an address instead of failing. -/
theorem C3_counterexample :
    derive_multisig testPrims ["xpubA"] 0 0 "p2sh" false "mainnet" =
      .ok "p2sh:true:[5]:[32, 37, 80, 33, 2, 0, 0, 0, 0, 0, 0, 0, 0, 0, 0, 0, 0, 0, 0, 0]"
    ∧ derive_multisig testPrims ["xpubA"] 17 0 "p2sh" false "mainnet" =
      .ok "p2sh:true:[5]:[32, 37, 97, 33, 2, 0, 0, 0, 0, 0, 0, 0, 0, 0, 0, 0, 0, 0, 0, 0]"
    ∧ derive_multisig testPrims (List.replicate 17 "xpubA") 1 0 "p2sh" false "mainnet" =
      .ok "p2sh:true:[5]:[32, 69, 81, 33, 2, 0, 0, 0, 0, 0, 0, 0, 0, 0, 0, 0, 0, 0, 0, 0]" :=
  ⟨by rfl, by rfl, by rfl⟩

/-- **C3 (amended).** `derive_multisig` performs no threshold or
cosigner-count validation and never raises a `ThresholdRangeError`: for any
threshold T and cosigner count M with `0x50+T` and `0x50+M` in byte range
(in particular T=0, T=1, T=M, T=17, M=17), whenever the per-key derivation
loop succeeds and the script type is one of the three supported tags, the
call succeeds and returns an address. -/
theorem C3_no_threshold_validation (P : Primitives) (xs : List String)
    (t i : Nat) (st : String) (ch : Bool) (nw : String) (ks : List (List Nat))
    (hks : mapME (processXpub P (nw == "mainnet") (if ch then 1 else 0) i) xs = .ok ks)
    (ht : 0x50 + t < 256)
    (hk : ∀ k ∈ ks, k.length < 256)
    (hm : 0x50 + ks.length < 256)
    (hst : st = "p2sh" ∨ st = "p2wsh" ∨ st = "p2sh_p2wsh") :
    ∃ a, derive_multisig P xs t i st ch nw = .ok a := by
  simp only [derive_multisig]
  rw [hks]
  show ∃ a, multisigFromKeys P ks t st (nw == "mainnet") = .ok a
  have hsmem : ∀ k ∈ sortKeys ks, k.length < 256 := fun k hk2 =>
    hk k ((List.mem_insertionSort keyLe).mp hk2)
  have hslen : 0x50 + (sortKeys ks).length < 256 := by
    unfold sortKeys
    rw [List.length_insertionSort]
    exact hm
  have hbody := scriptBody_spec (sortKeys ks) hsmem
  unfold multisigFromKeys
  simp only [redeemScript, mkByte, if_pos ht, if_pos hslen, hbody]
  rcases hst with h | h | h <;> subst h <;> cases hmn : (nw == "mainnet") <;> simp

/-- Witness for the amended C3: a concrete call with T=17 (and M=1, so also
T&gt;M) succeeds. -/
theorem C3_witness :
    ∃ a, derive_multisig testPrims ["xpubA"] 17 0 "p2sh" false "mainnet" = .ok a :=
  C3_no_threshold_validation testPrims ["xpubA"] 17 0 "p2sh" false "mainnet"
    [[2] ++ List.replicate 29 0 ++ [5, 0, 0]]
    (by rfl) (by omega) (by decide) (by decide) (.inl rfl)

/-- **C4 (counterexample).** The claim says `derive_multisig` fails with
`EmptyKeySetError` on an empty xpub list.  In the code there is no such
check: with zero xpubs it builds the degenerate script
`[OP_2, OP_0, OP_CHECKMULTISIG]` and returns an address. -/
theorem C4_counterexample :
    derive_multisig testPrims [] 2 0 "p2sh" false "mainnet" =
      .ok "p2sh:true:[5]:[32, 3, 82, 80, 174, 1, 1, 1, 1, 1, 1, 1, 1, 1, 1, 1, 1, 1, 1, 1]" := by
  rfl

/-- **C4 (amended).** `derive_multisig` performs no empty-key-set validation
and never raises an `EmptyKeySetError`: with zero xpubs (for any threshold
in opcode byte range, index, supported script type, change flag, and
network) it builds the degenerate redeem script
`[0x50+T, 0x50, 0xAE]` and succeeds, returning an address. -/
theorem C4_no_empty_keyset_validation (P : Primitives) (t i : Nat)
    (st : String) (ch : Bool) (nw : String)
    (ht : 0x50 + t < 256)
    (hst : st = "p2sh" ∨ st = "p2wsh" ∨ st = "p2sh_p2wsh") :
    redeemScript t (sortKeys []) = .ok [0x50 + t, 0x50, 0xAE]
    ∧ ∃ a, derive_multisig P [] t i st ch nw = .ok a := by
  constructor
  · simp [redeemScript, scriptBody, mkByte, sortKeys, if_pos ht]
  · simp only [derive_multisig, mapME]
    show ∃ a, multisigFromKeys P [] t st (nw == "mainnet") = .ok a
    unfold multisigFromKeys
    simp only [redeemScript, scriptBody, sortKeys, List.insertionSort, mkByte,
      if_pos ht]
    rcases hst with h | h | h <;> subst h <;> cases hmn : (nw == "mainnet") <;> simp

/-- Witness for the amended C4: the concrete empty-list call with T=2
succeeds. -/
theorem C4_witness :
    redeemScript 2 (sortKeys []) = .ok [0x50 + 2, 0x50, 0xAE]
    ∧ ∃ a, derive_multisig testPrims [] 2 0 "p2sh" false "mainnet" = .ok a :=
  C4_no_empty_keyset_validation testPrims 2 0 "p2sh" false "mainnet"
    (by omega) (.inl rfl)

/-- **C5.** Extended-key normalization: a key whose 4-character tag is
already canonical `xpub`/`tpub` is left unchanged (identity on the key
string); any other key, once Base58Check-decoded to its 78-byte payload,
has exactly its first 4 bytes (the version field) replaced by `0x0488B21E`
(mainnet classification) or `0x043587CF` (testnet classification), with
the remaining 74 payload bytes unchanged, before re-encoding. -/
theorem C5_normalization (P : Primitives) (mn : Bool) (x : String) :
    (canonicalTags.contains (x.take 4) = true → normalizeXpub P mn x = .ok x)
    ∧ (∀ d : List Nat, canonicalTags.contains (x.take 4) = false →
        P.checkDecode x = .ok d → d.length = 78 →
        normalizeXpub P mn x =
          .ok (P.checkEncode ((if mn then verMain else verTest) ++ d.drop 4))
        ∧ ((if mn then verMain else verTest) ++ d.drop 4).take 4 =
            (if mn then verMain else verTest)
        ∧ ((if mn then verMain else verTest) ++ d.drop 4).drop 4 = d.drop 4
        ∧ ((if mn then verMain else verTest) ++ d.drop 4).length = 78
        ∧ (d.drop 4).length = 74) := by
  constructor
  · intro h
    simp only [normalizeXpub, h, if_pos]
  · intro d hc hd hl
    refine ⟨?_, ?_, ?_, ?_, ?_⟩
    · simp only [normalizeXpub, hc, Bool.false_eq_true, if_false, hd]
    · cases mn <;> simp [verMain, verTest]
    · cases mn <;> simp [verMain, verTest]
    · cases mn <;> simp [verMain, verTest, hl]
    · simp [hl]

/-- Witness for C5: a canonical `xpub`-tagged key is returned unchanged,
and a `ypub`-tagged key is re-encoded with the canonical mainnet version
bytes in front of the unchanged tail of its decoded payload. -/
theorem C5_witness :
    normalizeXpub testPrims true "xpubA" = .ok "xpubA"
    ∧ normalizeXpub testPrims true "ypubA" =
        .ok (testPrims.checkEncode (verMain ++
          ((("ypubA".toList.map Char.toNat ++ List.replicate 78 0).take 78).drop 4))) :=
  by
  refine ⟨(C5_normalization testPrims true "xpubA").1 (by rfl), ?_⟩
  exact ((C5_normalization testPrims true "ypubA").2
    (("ypubA".toList.map Char.toNat ++ List.replicate 78 0).take 78)
    (by rfl) (by rfl) (by rfl)).1

/-- **C6.** Network classification in single-sig derivation: a key is
classified mainnet exactly when its first four characters are one of
`xpub`, `ypub`, `zpub`, `Ypub`, `Zpub` (case as listed); every other
prefix is classified testnet. -/
theorem C6_network_classification (x : String) :
    isMainnetSingle x = true ↔
      (x.take 4 = "xpub" ∨ x.take 4 = "ypub" ∨ x.take 4 = "zpub" ∨
        x.take 4 = "Ypub" ∨ x.take 4 = "Zpub") := by
  simp [isMainnetSingle, mainnetTags, List.contains, List.elem_eq_mem]

/-- **C7.** For every multisig call with script type `p2wsh`, the witness
program handed to the Bech32 witness-v0 encoder is the single SHA-256
digest of the redeem script (not HASH160 and not a double SHA-256), of
length 32. -/
theorem C7_p2wsh_single_sha256 (P : Primitives) (xs : List String)
    (t i : Nat) (ch : Bool) (nw : String) (ks : List (List Nat)) (rs : List Nat)
    (hks : mapME (processXpub P (nw == "mainnet") (if ch then 1 else 0) i) xs = .ok ks)
    (hrs : redeemScript t (sortKeys ks) = .ok rs)
    (hsha : ∀ b, (P.sha256 b).length = 32) :
    derive_multisig P xs t i "p2wsh" ch nw =
      .ok (P.p2wshEncode (P.sha256 rs) (nw == "mainnet"))
    ∧ (P.sha256 rs).length = 32 := by
  refine ⟨?_, hsha rs⟩
  simp only [derive_multisig]
  rw [hks]
  show multisigFromKeys P ks t "p2wsh" (nw == "mainnet") =
    .ok (P.p2wshEncode (P.sha256 rs) (nw == "mainnet"))
  unfold multisigFromKeys
  rw [hrs]
  cases hmn : (nw == "mainnet") <;> simp

/-- Witness for C7 at a concrete testnet 1-of-1 call. -/
theorem C7_witness :
    derive_multisig testPrims ["xpubA"] 1 5 "p2wsh" true "testnet" =
      .ok (testPrims.p2wshEncode
        (testPrims.sha256
          (0x51 :: 33 :: ([2] ++ List.replicate 29 0 ++ [5, 1, 5]) ++ [0x51, 0xAE]))
        false)
    ∧ (testPrims.sha256
        (0x51 :: 33 :: ([2] ++ List.replicate 29 0 ++ [5, 1, 5]) ++ [0x51, 0xAE])).length = 32 :=
  C7_p2wsh_single_sha256 testPrims ["xpubA"] 1 5 true "testnet"
    [[2] ++ List.replicate 29 0 ++ [5, 1, 5]]
    (0x51 :: 33 :: ([2] ++ List.replicate 29 0 ++ [5, 1, 5]) ++ [0x51, 0xAE])
    (by rfl) (by rfl) testPrims_sha256_len

/-- **C8.** For every single-sig call with script type `taproot`, the key
handed to the Bech32m witness-v1 encoder is the 32-byte x-only public key
obtained by dropping the leading parity byte of the 33-byte compressed
derived public key, and that witness program has length 32. -/
theorem C8_taproot_xonly (P : Primitives) (x : String) (i : Nat) (ch : Bool)
    (nw : String) (x1 : String) (pk : List Nat)
    (hn : normalizeXpub P (isMainnetSingle x) x = .ok x1)
    (hd : P.derivePubkey x1 (if ch then 1 else 0) i = .ok pk)
    (hlen : pk.length = 33) :
    derive_single_sig P x i "taproot" ch nw =
      .ok (P.p2trEncode (pk.drop 1) (isMainnetSingle x))
    ∧ (pk.drop 1).length = 32 := by
  have hdroplen : (pk.drop 1).length = 32 := by simp [hlen]
  refine ⟨?_, hdroplen⟩
  have htake : pk.tail.take 32 = pk.tail :=
    List.take_of_length_le (by simp [hlen])
  simp only [derive_single_sig, hn]
  simp only [hd]
  simp [htake]

/-- Witness for C8 at a concrete mainnet call with index 7 on the change
branch. -/
theorem C8_witness :
    derive_single_sig testPrims "xpubA" 7 "taproot" true "mainnet" =
      .ok (testPrims.p2trEncode
        (([2] ++ List.replicate 29 0 ++ [5, 1, 7]).drop 1)
        (isMainnetSingle "xpubA"))
    ∧ (([2] ++ List.replicate 29 0 ++ [5, 1, 7]).drop 1).length = 32 :=
  C8_taproot_xonly testPrims "xpubA" 7 true "mainnet" "xpubA"
    ([2] ++ List.replicate 29 0 ++ [5, 1, 7])
    (by rfl) (by rfl) (by decide)

/-- **C9.** Noninterference of the `network` argument in single-sig
derivation: for a fixed xpub, index, script type, and change flag, any two
values of the network argument produce the same result, and the network
classification the function does use is determined solely by the xpub's
4-character prefix. -/
theorem C9_network_noninterference (P : Primitives) (x : String) (i : Nat)
    (st : String) (ch : Bool) :
    (∀ nw nw' : String,
      derive_single_sig P x i st ch nw = derive_single_sig P x i st ch nw')
    ∧ (∀ y : String, x.take 4 = y.take 4 → isMainnetSingle x = isMainnetSingle y) := by
  constructor
  · intro nw nw'
    rfl
  · intro y h
    unfold isMainnetSingle
    rw [h]

/-- Witness for C9: mainnet vs testnet argument at a concrete call give the
same address, and classification agrees across keys sharing a prefix. -/
theorem C9_witness :
    derive_single_sig testPrims "xpubA" 0 "legacy" false "mainnet" =
      derive_single_sig testPrims "xpubA" 0 "legacy" false "testnet"
    ∧ isMainnetSingle "xpubA" = isMainnetSingle "xpubAB" :=
  ⟨(C9_network_noninterference testPrims "xpubA" 0 "legacy" false).1 "mainnet" "testnet",
   (C9_network_noninterference testPrims "xpubA" 0 "legacy" false).2 "xpubAB" (by rfl)⟩

/-- **C10.** In `derive_multisig` the mainnet/testnet decision governing
version-byte rewriting is taken exclusively from the explicit `network`
argument (mainnet iff it equals `"mainnet"`), not from any xpub prefix: a
non-canonical xpub (any prefix other than `xpub`/`tpub`, including
mainnet-family SLIP-132 prefixes) is rewritten with `0x0488B21E` exactly
when `network = "mainnet"` and with `0x043587CF` otherwise, and the whole
key loop runs with the flag `network == "mainnet"`. -/
theorem C10_multisig_network_authority (P : Primitives) (nw x : String)
    (d : List Nat) (cidx i t : Nat) (xs : List String) (st : String) (ch : Bool)
    (h1 : canonicalTags.contains (x.take 4) = false)
    (h2 : P.checkDecode x = .ok d) :
    processXpub P (nw == "mainnet") cidx i x =
      P.derivePubkey
        (P.checkEncode ((if nw = "mainnet" then verMain else verTest) ++ d.drop 4))
        cidx i
    ∧ derive_multisig P xs t i st ch nw =
        (match mapME (processXpub P (nw == "mainnet") (if ch then 1 else 0) i) xs with
          | .error e => .error e
          | .ok ks => multisigFromKeys P ks t st (nw == "mainnet")) := by
  constructor
  · simp only [processXpub, normalizeXpub, h1, Bool.false_eq_true, if_false, h2]
    by_cases h : nw = "mainnet"
    · have hb : (nw == "mainnet") = true := beq_iff_eq.mpr h
      simp [h, hb]
    · have hb : (nw == "mainnet") = false := beq_eq_false_iff_ne.mpr h
      simp [h, hb]
  · rfl

/-- Witness for C10: a mainnet-family `ypub`-tagged key processed with
`network = "testnet"` is rewritten with the TESTNET version constant,
contradicting its own prefix family — the explicit argument wins. -/
theorem C10_witness :
    processXpub testPrims ("testnet" == "mainnet") 0 0 "ypubA" =
      testPrims.derivePubkey
        (testPrims.checkEncode
          ((if ("testnet" : String) = "mainnet" then verMain else verTest) ++
            (([121, 112, 117, 98, 65] ++ List.replicate 73 0).drop 4)))
        0 0 :=
  (C10_multisig_network_authority testPrims "testnet" "ypubA"
    ([121, 112, 117, 98, 65] ++ List.replicate 73 0)
    0 0 1 ["ypubA"] "p2sh" false (by rfl) (by rfl)).1

end PyVerify
